import Mathlib

/-!
Shallow embedding of the annual-leave-calendar core (schema discovery,
record normalization, leave metrics) for checking its specification.

Conventions of the embedding:
* A calendar date is an epoch-day number (`Int`, days since 1970-01-01,
  which was a Thursday).  All dates flowing through the core are
  normalized to the start of a day, so day granularity is faithful.
* A JavaScript `Date` value is a `JSDate`: either a valid day or the
  Invalid Date produced by parsing a malformed string.  Comparison
  operators on `Date` objects compare timestamps; any comparison
  involving an Invalid Date (`NaN` timestamp) is `false`.
* JavaScript nullish values are `Option`; JS truthiness is made explicit
  (`none` and the empty string are falsy, objects and arrays - including
  the empty array - are truthy).
* CMS field values are `JSVal` (null/undefined, string, reference object
  with an `id`, array of values).
-/

namespace ALC

/-- JS field values as they occur in Webflow `fieldData`:
`null`/`undefined`, a string, a reference object carrying an `id`
property (possibly absent), or an array of values. -/
inductive JSVal where
  | null
  | str (s : String)
  | obj (id : Option String)
  | arr (elems : List JSVal)

/-- JS truthiness of a `JSVal`: `null`/`undefined` and `""` are falsy;
objects and arrays (even empty ones) are truthy. -/
def jsTruthy : JSVal → Bool
  | .null => false
  | .str s => !(s == "")
  | .obj _ => true
  | .arr _ => true

/-- JS truthiness of a nullable string (`null`/`undefined` and `""` are
falsy). -/
def jsTruthyStr : Option String → Bool
  | none => false
  | some s => !(s == "")

/-- A JS `Date` value at day granularity: a valid date is its epoch-day
number, and `invalid` is the Invalid Date (timestamp `NaN`). -/
inductive JSDate where
  | invalid
  | valid (day : Int)
deriving DecidableEq

/-- JS `<=` between `Date` objects (via `getTime`): any comparison with
an Invalid Date is `NaN <= x` and hence false. -/
def jsDateLe : JSDate → JSDate → Bool
  | .valid a, .valid b => a ≤ b
  | _, _ => false

/-- JS `<` between `Date` objects: false whenever an Invalid Date is
involved. -/
def jsDateLt : JSDate → JSDate → Bool
  | .valid a, .valid b => a < b
  | _, _ => false

/-- `Date.prototype.getDay` on a valid epoch day: 1970-01-01 is a
Thursday (`getDay = 4`), Sunday is 0, Saturday is 6. -/
def dayOfWeek (day : Int) : Int := (day + 4) % 7

/-! ## date-utils.js -/

/-- `isWeekend` (date-utils.js:10): `getDay` is 0 (Sunday) or 6
(Saturday).  On an Invalid Date `getDay` is `NaN`, which equals neither,
so the result is false. -/
def isWeekend : JSDate → Bool
  | .valid d => (dayOfWeek d == 0) || (dayOfWeek d == 6)
  | .invalid => false

/-- `isDateInRange` (date-utils.js:22): inclusive timestamp comparison
`start <= date && date <= end`. -/
def isDateInRange (date startDate endDate : JSDate) : Bool :=
  jsDateLe startDate date && jsDateLe date endDate

/-- `isSameDate` (date-utils.js:35): same year/month/day.  At day
granularity this is equality of the day numbers; on an Invalid Date the
components are `NaN` and never equal. -/
def isSameDate : JSDate → JSDate → Bool
  | .valid a, .valid b => a == b
  | _, _ => false

/-- `n` consecutive day numbers starting at `s` (the successive values
taken by `currentDate` in the loop of `getDatesInRange`). -/
def rangeDaysAux (s : Int) : Nat → List Int
  | 0 => []
  | n + 1 => s :: rangeDaysAux (s + 1) n

/-- The day numbers from `s` to `e` inclusive, produced by the
`while (currentDate <= endDate)` loop of `getDatesInRange`
(date-utils.js:49) advancing one day at a time: the loop body runs
exactly `e + 1 - s` times (and none when `s > e`). -/
def rangeDays (s e : Int) : List Int :=
  rangeDaysAux s (e + 1 - s).toNat

/-- `getDatesInRange` (date-utils.js:49): all dates from `startDate` to
`endDate` inclusive.  With an Invalid Date bound the loop condition is a
`NaN` comparison, so the loop body never runs and the result is empty. -/
def getDatesInRange : JSDate → JSDate → List JSDate
  | .valid s, .valid e => (rangeDays s e).map JSDate.valid
  | _, _ => []

/-- Canonical public holiday entity (spec §3; produced by
`processPublicHolidays`).  `stateIds` is `none` when the property is
absent (`undefined`) and `some l` when it is an array `l`; the
normalizer always produces an array, possibly empty. -/
structure PublicHoliday where
  id : String
  date : JSDate
  name : String
  stateIds : Option (List String)
deriving DecidableEq

/-- Canonical school holiday entity (spec §3; produced by
`processSchoolHolidays`).  `stateId` is `none` for JS `null`/`undefined`. -/
structure SchoolHoliday where
  id : String
  startDate : JSDate
  endDate : JSDate
  name : String
  stateId : Option String
deriving DecidableEq

/-- `isDateInSchoolHoliday` (date-utils.js:68): true when the date falls
in some school holiday period, where a holiday is skipped when a state
is selected AND the holiday has a truthy `stateId` AND that id differs
from the selection. -/
def isDateInSchoolHoliday (date : JSDate) (schoolHolidays : Option (List SchoolHoliday))
    (selectedStateId : Option String) : Bool :=
  match schoolHolidays with
  | none => false
  | some hs =>
    if hs.isEmpty then false
    else hs.any fun holiday =>
      if jsTruthyStr selectedStateId && jsTruthyStr holiday.stateId
          && !(holiday.stateId == selectedStateId) then false
      else isDateInRange date holiday.startDate holiday.endDate

/-- `isPublicHoliday` (date-utils.js:90): true when the date equals some
public holiday date, where a holiday is skipped when a state is selected
AND its `stateIds` is truthy (any array, including the empty array, is
truthy) AND the array does not contain the selected id. -/
def isPublicHoliday (date : JSDate) (publicHolidays : Option (List PublicHoliday))
    (selectedStateId : Option String) : Bool :=
  match publicHolidays with
  | none => false
  | some hs =>
    if hs.isEmpty then false
    else hs.any fun holiday =>
      if jsTruthyStr selectedStateId && holiday.stateIds.isSome
          && !((holiday.stateIds.getD []).contains (selectedStateId.getD "")) then false
      else isSameDate date holiday.date

/-- `normalizeDate` (date-utils.js:125): zero the time-of-day.  At day
granularity this is the identity on valid dates; `setHours` on an
Invalid Date leaves it invalid. -/
def normalizeDate : JSDate → JSDate
  | .invalid => .invalid
  | .valid d => .valid d

/-- Split a character list at every occurrence of the separator
character (used to model the string splitting done while parsing ISO
dates). -/
def splitOnChar (c : Char) : List Char → List (List Char)
  | [] => [[]]
  | x :: xs =>
    match splitOnChar c xs with
    | [] => [[]]
    | g :: gs => if x = c then [] :: g :: gs else (x :: g) :: gs

/-- Numeric value of a digit list (most significant first). -/
def digitsVal (l : List Char) : Nat :=
  l.foldl (fun a c => a * 10 + (c.toNat - 48)) 0

/-- Proleptic-Gregorian leap year test. -/
def isLeapYear (y : Nat) : Bool :=
  (y % 4 == 0 && y % 100 != 0) || y % 400 == 0

/-- Number of days in a month of a given year. -/
def daysInMonth (y m : Nat) : Nat :=
  if m == 2 then (if isLeapYear y then 29 else 28)
  else if m == 4 || m == 6 || m == 9 || m == 11 then 30
  else 31

/-- Epoch-day number of a civil date (days since 1970-01-01), the
standard days-from-civil computation, for years `>= 1`. -/
def daysFromCivil (y m d : Nat) : Int :=
  let y2 := if m ≤ 2 then y - 1 else y
  let era := y2 / 400
  let yoe := y2 % 400
  let mp := if m > 2 then m - 3 else m + 9
  let doy := (153 * mp + 2) / 5 + d - 1
  let doe := yoe * 365 + yoe / 4 - yoe / 100 + doy
  ((era * 146097 + doe : Nat) : Int) - 719468

/-- Models the JS `Date` constructor's parsing of a date string: an
ISO-8601 `YYYY-MM-DD` date (with an optional `T...` time suffix) parses
to a valid date; everything else is the Invalid Date.  (The real
constructor accepts a few more formats and validates the time suffix;
no claim depends on those inputs.) -/
def jsNewDate (s : String) : JSDate :=
  let datePart := (splitOnChar 'T' s.data).headD []
  match splitOnChar '-' datePart with
  | [ys, ms, ds] =>
    if ys.length == 4 && ms.length == 2 && ds.length == 2
        && (ys ++ ms ++ ds).all Char.isDigit then
      let y := digitsVal ys
      let m := digitsVal ms
      let d := digitsVal ds
      if 1 ≤ m ∧ m ≤ 12 ∧ 1 ≤ d ∧ d ≤ daysInMonth y m then
        .valid (daysFromCivil y m d)
      else .invalid
    else .invalid
  | _ => .invalid

/-- `parseWebflowDate` (date-utils.js:136): returns `null` for a falsy
(empty) input string, otherwise `normalizeDate(new Date(dateString))`.
Note that for a malformed nonempty string `new Date` yields the Invalid
Date - a truthy object - which is returned as is, not `null`. -/
def parseWebflowDate (dateString : String) : Option JSDate :=
  if dateString == "" then none
  else some (normalizeDate (jsNewDate dateString))

/-! ## Metrics engine (calculations module) -/

/-- The ISO day key a date contributes to the engine's sets
(`d.toISOString().split('T')[0]`); at day granularity this is the day
number.  `toISOString` throws on an Invalid Date, but every date that is
keyed first passed a comparison that is false for Invalid Dates, so the
invalid branch is unreachable. -/
def dateKey : JSDate → Int
  | .valid d => d
  | .invalid => 0

/-- `calculateTotalDaysOff` (calculations module, lines 24-80): size of
the set union of the selected days, the state-filtered public holiday
dates inside the range, and the days of the state-filtered school
holiday periods clipped to their overlap with the range.  Returns 0 when
either bound is `null`. -/
def calculateTotalDaysOff (startDate endDate : Option JSDate)
    (publicHolidays : Option (List PublicHoliday))
    (schoolHolidays : Option (List SchoolHoliday))
    (selectedStateId : Option String) : Nat :=
  match startDate, endDate with
  | some sd, some ed =>
    let selectedDates := getDatesInRange sd ed
    let selectedDateSet : Finset Int := (selectedDates.map dateKey).toFinset
    let afterPublic : Finset Int :=
      match publicHolidays with
      | none => ∅
      | some hs => hs.foldl (fun acc holiday =>
          if jsTruthyStr selectedStateId && holiday.stateIds.isSome
              && !((holiday.stateIds.getD []).contains (selectedStateId.getD "")) then acc
          else if jsDateLe sd holiday.date && jsDateLe holiday.date ed then
            insert (dateKey holiday.date) acc
          else acc) ∅
    let holidaysInRange : Finset Int :=
      match schoolHolidays with
      | none => afterPublic
      | some hs => hs.foldl (fun acc holiday =>
          if jsTruthyStr selectedStateId && jsTruthyStr holiday.stateId
              && !(holiday.stateId == selectedStateId) then acc
          else if jsDateLe holiday.startDate ed && jsDateLe sd holiday.endDate then
            let overlapStart := if jsDateLt sd holiday.startDate then holiday.startDate else sd
            let overlapEnd := if jsDateLt holiday.endDate ed then holiday.endDate else ed
            ((getDatesInRange overlapStart overlapEnd).map dateKey).foldl
              (fun a k => insert k a) acc
          else acc) afterPublic
    (selectedDateSet ∪ holidaysInRange).card
  | _, _ => 0

/-- `calculateLeaveDaysUsed` (calculations module, lines 92-112):
selected days that are neither weekends nor (state-filtered) public
holidays; school holidays are deliberately not excluded.  Returns 0
when either bound is `null`. -/
def calculateLeaveDaysUsed (startDate endDate : Option JSDate)
    (publicHolidays : Option (List PublicHoliday))
    (schoolHolidays : Option (List SchoolHoliday))
    (selectedStateId : Option String) : Nat :=
  match startDate, endDate with
  | some sd, some ed =>
    ((getDatesInRange sd ed).filter fun date =>
      if isWeekend date then false
      else if isPublicHoliday date publicHolidays selectedStateId then false
      else true).length
  | _, _ => 0

/-- `calculateSchoolDaysAbsent` (calculations module, lines 124-149):
selected days that are neither weekends, nor (state-filtered) public
holidays, nor inside a (state-filtered) school holiday period.  Returns
0 when either bound is `null`. -/
def calculateSchoolDaysAbsent (startDate endDate : Option JSDate)
    (publicHolidays : Option (List PublicHoliday))
    (schoolHolidays : Option (List SchoolHoliday))
    (selectedStateId : Option String) : Nat :=
  match startDate, endDate with
  | some sd, some ed =>
    ((getDatesInRange sd ed).filter fun date =>
      if isWeekend date then false
      else if isPublicHoliday date publicHolidays selectedStateId then false
      else if isDateInSchoolHoliday date schoolHolidays selectedStateId then false
      else true).length
  | _, _ => 0

/-- The record returned by `calculateAllMetrics`. -/
structure Metrics where
  totalDaysOff : Nat
  leaveDaysUsed : Nat
  schoolDaysAbsent : Nat
deriving DecidableEq

/-- `calculateAllMetrics` (calculations module, lines 160-166). -/
def calculateAllMetrics (startDate endDate : Option JSDate)
    (publicHolidays : Option (List PublicHoliday))
    (schoolHolidays : Option (List SchoolHoliday))
    (selectedStateId : Option String) : Metrics :=
  ⟨calculateTotalDaysOff startDate endDate publicHolidays schoolHolidays selectedStateId,
   calculateLeaveDaysUsed startDate endDate publicHolidays schoolHolidays selectedStateId,
   calculateSchoolDaysAbsent startDate endDate publicHolidays schoolHolidays selectedStateId⟩

/-! ## collection-detector.js (field discovery) -/

/-- One schema field: its slug, its schema type (`"DateTime"`,
`"PlainText"`, `"Reference"`, `"MultiReference"`, ...), and the
`validations.collectionId` metadata when present. -/
structure Field where
  slug : String
  type : String
  validationCollectionId : Option String
deriving DecidableEq

/-- A collection schema as handed to the discovery functions: its
ordered field list (`collectionSchema.fields || []`). -/
structure CollectionSchema where
  fields : List Field
deriving DecidableEq

/-- ASCII lowercasing, modelling `String.prototype.toLowerCase` on the
slugs and patterns in play. -/
def lowerStr (s : String) : String := ⟨s.data.map Char.toLower⟩

/-- Character-list prefix test (helper for the substring test below). -/
def charsPre : List Char → List Char → Bool
  | [], _ => true
  | _ :: _, [] => false
  | c :: cs, d :: ds => c == d && charsPre cs ds

/-- `pat` occurs as a contiguous run inside `l`. -/
def charsInfix : List Char → List Char → Bool
  | pat, [] => charsPre pat []
  | pat, l@(_ :: xs) => charsPre pat l || charsInfix pat xs

/-- JS `String.prototype.includes`: `pat` occurs as a contiguous
substring of `s`. -/
def strIncludes (s pat : String) : Bool := charsInfix pat.data s.data

/-- `findFieldByType` (collection-detector.js:55): first field whose
`type` equals the requested type, else `null`. -/
def findFieldByType (fields : List Field) (t : String) : Option Field :=
  fields.find? fun field => field.type == t

/-- `findFieldBySlug` (collection-detector.js:65): first field whose
lowercased slug contains one of the lowercased patterns, else `null`. -/
def findFieldBySlug (fields : List Field) (patterns : List String) : Option Field :=
  fields.find? fun field =>
    patterns.any fun pattern => strIncludes (lowerStr field.slug) (lowerStr pattern)

/-- `findStateReferenceField` (collection-detector.js:78): first
`Reference`/`MultiReference` field whose validation metadata points at
the States collection id. -/
def findStateReferenceField (fields : List Field) (statesCollectionId : String) : Option Field :=
  fields.find? fun field =>
    (field.type == "Reference" || field.type == "MultiReference")
      && field.validationCollectionId == some statesCollectionId

/-- Field map for the public holidays collection. -/
structure PublicHolidayFields where
  dateField : Option Field
  nameField : Option Field
  stateField : Option Field
deriving DecidableEq

/-- Field map for the school holidays collection. -/
structure SchoolHolidayFields where
  startDateField : Option Field
  endDateField : Option Field
  nameField : Option Field
  stateField : Option Field
deriving DecidableEq

/-- Field map for the states collection.  The source object literal
(collection-detector.js:131) has no `abbreviationField` key, so reading
that property downstream yields `undefined`; the absent key is modelled
as a field that is always `none`. -/
structure StateFields where
  nameField : Option Field
  slugField : Option Field
  abbreviationField : Option Field
deriving DecidableEq

/-- `discoverPublicHolidayFields` (collection-detector.js:94): date role
is type-first (`DateTime`) with slug fallback `["date"]`; name role is
slug-first with `PlainText` fallback; state role only via reference
validation metadata, and only when a States collection id was supplied
(truthy). -/
def discoverPublicHolidayFields (collectionSchema : CollectionSchema)
    (statesCollectionId : Option String) : PublicHolidayFields :=
  let fields := collectionSchema.fields
  ⟨(findFieldByType fields "DateTime") <|> (findFieldBySlug fields ["date"]),
   (findFieldBySlug fields ["name"]) <|> (findFieldByType fields "PlainText"),
   if jsTruthyStr statesCollectionId then
     findStateReferenceField fields (statesCollectionId.getD "")
   else none⟩

/-- `discoverSchoolHolidayFields` (collection-detector.js:110): start
and end date roles are slug-first (`start-date`/`startdate`/`start`,
resp. `end-date`/`enddate`/`end`) with a `DateTime` type fallback; name
and state roles as for public holidays. -/
def discoverSchoolHolidayFields (collectionSchema : CollectionSchema)
    (statesCollectionId : Option String) : SchoolHolidayFields :=
  let fields := collectionSchema.fields
  ⟨(findFieldBySlug fields ["start-date", "startdate", "start"]) <|>
     (findFieldByType fields "DateTime"),
   (findFieldBySlug fields ["end-date", "enddate", "end"]) <|>
     (findFieldByType fields "DateTime"),
   (findFieldBySlug fields ["name"]) <|> (findFieldByType fields "PlainText"),
   if jsTruthyStr statesCollectionId then
     findStateReferenceField fields (statesCollectionId.getD "")
   else none⟩

/-- `discoverStateFields` (collection-detector.js:128): name and slug
roles only; the returned object has no `abbreviationField` key. -/
def discoverStateFields (collectionSchema : CollectionSchema) : StateFields :=
  let fields := collectionSchema.fields
  ⟨(findFieldBySlug fields ["name"]) <|> (findFieldByType fields "PlainText"),
   findFieldBySlug fields ["slug"],
   none⟩

/-! ## Record normalizers (data-processor module) -/

/-- A raw CMS item: publication flags and the `fieldData` mapping from
slugs to values.  A slug missing from the mapping reads as
`undefined` (`JSVal.null` in this model). -/
structure RawItem where
  id : String
  isArchived : Bool
  isDraft : Bool
  fieldData : List (String × JSVal)

/-- Read `item.fieldData[slug]`; an absent key is `undefined`. -/
def jsLookup (fieldData : List (String × JSVal)) (slug : String) : JSVal :=
  (fieldData.lookup slug).getD .null

/-- `filterPublishedItems` (data-processor module, lines 13-23): `[]`
for a non-array input, else only the items with `isArchived` and
`isDraft` both false. -/
def filterPublishedItems (items : Option (List RawItem)) : List RawItem :=
  match items with
  | none => []
  | some l => l.filter fun item => !item.isArchived && !item.isDraft

/-- The state-ids extraction of `processPublicHolidays` (data-processor
module, lines 61-76): an array maps each entry through `ref.id || ref`
and keeps the truthy results; a single reference object with a truthy
`id` gives a singleton; a bare string gives a singleton.  Array entries
that survive `filter(Boolean)` as non-string objects (a reference
object with a falsy `id`, a nested array) can never equal a state id
string nor change the array's truthiness, so they are modelled as
dropped. -/
def extractPubStateIds (stateValue : JSVal) : List String :=
  if jsTruthy stateValue then
    match stateValue with
    | .arr l =>
      l.filterMap fun ref =>
        match ref with
        | .obj (some i) => if i == "" then none else some i
        | .str s => if s == "" then none else some s
        | _ => none
    | .obj (some i) => if i == "" then [] else [i]
    | .str s => [s]
    | _ => []
  else []

/-- The state-id extraction of `processSchoolHolidays` (data-processor
module, lines 139-155): a reference object with a truthy `id`, a bare
string, or the first entry of a non-empty array (its `id` when it is an
object, itself when it is a string).  A first entry that is itself an
array reads `id` as `undefined`; that and JS edge cases that would
throw are modelled as no state. -/
def extractSchoolStateId (stateValue : JSVal) : Option String :=
  if jsTruthy stateValue then
    match stateValue with
    | .obj (some i) => if i == "" then none else some i
    | .str s => some s
    | .arr (firstState :: _) =>
      match firstState with
      | .obj i => i
      | .str s => some s
      | _ => none
    | _ => none
  else none

/-- The `fieldData[nameField.slug] || defaultValue` pattern used for
name/slug/abbreviation extraction: a truthy string is kept, a falsy
value gives the default.  (A truthy non-string value would be kept
as-is in JS; no claim depends on the content of these text fields, so
such values are modelled by the default.) -/
def jsStrOrDefault (v : JSVal) (deflt : String) : String :=
  match v with
  | .str s => if s == "" then deflt else s
  | _ => deflt

/-- `processPublicHolidays` (data-processor module, lines 32-86): keep
only published items; per item, drop it when the date field is
unresolved, its value falsy, or `parseWebflowDate` returns `null`
(note an Invalid Date is truthy and not dropped); extract name with the
`'Untitled Holiday'` default and the state ids; `filter(Boolean)`
removes the dropped entries. -/
def processPublicHolidays (items : Option (List RawItem))
    (fields : PublicHolidayFields) : List PublicHoliday :=
  (filterPublishedItems items).filterMap fun item =>
    let fieldData := item.fieldData
    let dateValue := match fields.dateField with
      | some f => jsLookup fieldData f.slug
      | none => .null
    if !(jsTruthy dateValue) then none
    else
      let dateOpt := match dateValue with
        | .str s => parseWebflowDate s
        | _ => some (normalizeDate .invalid)
      match dateOpt with
      | none => none
      | some date =>
        let name := match fields.nameField with
          | some f => jsStrOrDefault (jsLookup fieldData f.slug) "Untitled Holiday"
          | none => "Untitled Holiday"
        let stateIds := match fields.stateField with
          | some f => extractPubStateIds (jsLookup fieldData f.slug)
          | none => []
        some ⟨item.id, normalizeDate date, name, some stateIds⟩

/-- `processSchoolHolidays` (data-processor module, lines 94-166): keep
only published items; per item, drop it when either date field is
unresolved, its value falsy, or the parse returns `null`; then drop it
when `endDate < startDate` (a `NaN` comparison with an Invalid Date is
false, so such records are NOT dropped); extract name and the single
state id. -/
def processSchoolHolidays (items : Option (List RawItem))
    (fields : SchoolHolidayFields) : List SchoolHoliday :=
  (filterPublishedItems items).filterMap fun item =>
    let fieldData := item.fieldData
    let startDateValue := match fields.startDateField with
      | some f => jsLookup fieldData f.slug
      | none => .null
    if !(jsTruthy startDateValue) then none
    else
      let startOpt := match startDateValue with
        | .str s => parseWebflowDate s
        | _ => some (normalizeDate .invalid)
      match startOpt with
      | none => none
      | some startDate =>
        let endDateValue := match fields.endDateField with
          | some f => jsLookup fieldData f.slug
          | none => .null
        if !(jsTruthy endDateValue) then none
        else
          let endOpt := match endDateValue with
            | .str s => parseWebflowDate s
            | _ => some (normalizeDate .invalid)
          match endOpt with
          | none => none
          | some endDate =>
            if jsDateLt endDate startDate then none
            else
              let name := match fields.nameField with
                | some f => jsStrOrDefault (jsLookup fieldData f.slug) "Untitled Holiday"
                | none => "Untitled Holiday"
              let stateId := match fields.stateField with
                | some f => extractSchoolStateId (jsLookup fieldData f.slug)
                | none => none
              some ⟨item.id, normalizeDate startDate, normalizeDate endDate, name, stateId⟩

/-- Canonical state entity produced by `processStates`. -/
structure StateEntity where
  id : String
  name : String
  slug : String
  abbreviation : String
deriving DecidableEq

/-- Insert a state into a name-sorted list, before the first entry with
a name not smaller than its own (keeps the sort stable). -/
def insertByName (s : StateEntity) : List StateEntity → List StateEntity
  | [] => [s]
  | t :: ts => if s.name ≤ t.name then s :: t :: ts else t :: insertByName s ts

/-- Models `Array.prototype.sort` with the
`(a, b) => a.name.localeCompare(b.name)` comparator as a stable
insertion sort; `localeCompare` is modelled as code-point string
order. -/
def sortByName : List StateEntity → List StateEntity
  | [] => []
  | s :: ss => insertByName s (sortByName ss)

/-- `processStates` (data-processor module, lines 174-206): keep only
published items, map each to a state entity (name and slug with their
defaults; the abbreviation read through the absent `abbreviationField`
key, hence its `''` default), then sort ascending by name. -/
def processStates (items : Option (List RawItem))
    (fields : StateFields) : List StateEntity :=
  sortByName ((filterPublishedItems items).map fun item =>
    let fieldData := item.fieldData
    let name := match fields.nameField with
      | some f => jsStrOrDefault (jsLookup fieldData f.slug) "Untitled State"
      | none => "Untitled State"
    let slug := match fields.slugField with
      | some f => jsStrOrDefault (jsLookup fieldData f.slug) ""
      | none => ""
    let abbreviation := match fields.abbreviationField with
      | some f => jsStrOrDefault (jsLookup fieldData f.slug) ""
      | none => ""
    ⟨item.id, name, slug, abbreviation⟩)

/-! ## Spec-side definitions

Definitions written from the specification's words, for comparison with
the code-side definitions above. -/

/-- Amended public-holiday keep-condition: with a non-empty selected
state id, a public holiday passes the state filter iff its `stateIds`
is absent (`null`/`undefined`) or contains the selected id.  An empty
`stateIds` array is truthy in JS and does NOT pass. -/
def pubKeepAmended (sel : String) (holiday : PublicHoliday) : Bool :=
  holiday.stateIds.isNone || (holiday.stateIds.getD []).contains sel

/-- Amended school-holiday keep-condition: with a non-empty selected
state id, a school holiday passes the state filter iff its `stateId` is
falsy (`null`/`undefined`/empty) - such holidays are treated as
universal - or equals the selected id. -/
def schKeepAmended (sel : String) (holiday : SchoolHoliday) : Bool :=
  !(jsTruthyStr holiday.stateId) || (holiday.stateId == some sel)

/-- Spec-side: the first field, in original order, whose schema type is
exactly `t`. -/
def firstFieldOfType (t : String) : List Field → Option Field
  | [] => none
  | f :: fs => if f.type = t then some f else firstFieldOfType t fs

/-- Spec-side: the first field, in original order, whose lowercased
identifier contains one of the lowercased patterns as a substring. -/
def firstFieldMatchingSlug (patterns : List String) : List Field → Option Field
  | [] => none
  | f :: fs =>
    if patterns.any (fun p => strIncludes (lowerStr f.slug) (lowerStr p)) then some f
    else firstFieldMatchingSlug patterns fs

/-- Spec-side discovery strategy as the claim states it: an exact
type match first, and only if no field has that type, the name-pattern
fallback. -/
def typeThenPattern (fields : List Field) (t : String) (patterns : List String) :
    Option Field :=
  match firstFieldOfType t fields with
  | some f => some f
  | none => firstFieldMatchingSlug patterns fields

/-- Spec-side discovery strategy with the two steps in the other order:
the name-pattern search first, and only if no identifier matches, the
type match fallback. -/
def patternThenType (fields : List Field) (patterns : List String) (t : String) :
    Option Field :=
  match firstFieldMatchingSlug patterns fields with
  | some f => some f
  | none => firstFieldOfType t fields

/-! ## Supporting lemmas -/

theorem rangeDaysAux_eq (n : Nat) : ∀ s : Int,
    rangeDaysAux s n = (List.range n).map fun i : Nat => s + (i : Int) := by
  induction n with
  | zero => intro s; rfl
  | succ n ih =>
    intro s
    rw [List.range_succ_eq_map, rangeDaysAux, ih (s + 1)]
    rw [List.map_cons, List.map_map]
    congr 1
    · simp
    · apply List.map_congr_left
      intro a _
      simp only [Function.comp_apply]
      omega

theorem rangeDaysAux_length (n : Nat) : ∀ s : Int, (rangeDaysAux s n).length = n := by
  induction n with
  | zero => intro s; rfl
  | succ n ih => intro s; simp [rangeDaysAux, ih]

theorem length_filter_mono {α : Type} {p q : α → Bool} (l : List α)
    (h : ∀ a, q a = true → p a = true) :
    (l.filter q).length ≤ (l.filter p).length := by
  induction l with
  | nil => simp
  | cons a t ih =>
    rw [List.filter_cons, List.filter_cons]
    by_cases hq : q a = true
    · rw [hq, h a hq]
      simpa using ih
    · rw [Bool.eq_false_iff.mpr hq]
      cases hp : p a <;> simp <;> omega

/-! ## C6: monotonic exclusion chain -/

/-- C6: for a valid selection with `startDate <= endDate`, any holiday
lists and any state selection, `leaveDaysUsed` is at most the number of
days in the inclusive range, and `schoolDaysAbsent` is at most
`leaveDaysUsed`. -/
theorem c6_monotonic_exclusion (s e : Int) (hse : s ≤ e)
    (publicHolidays : Option (List PublicHoliday))
    (schoolHolidays : Option (List SchoolHoliday))
    (selectedStateId : Option String) :
    calculateLeaveDaysUsed (some (.valid s)) (some (.valid e))
        publicHolidays schoolHolidays selectedStateId
      ≤ (getDatesInRange (.valid s) (.valid e)).length
    ∧ calculateSchoolDaysAbsent (some (.valid s)) (some (.valid e))
        publicHolidays schoolHolidays selectedStateId
      ≤ calculateLeaveDaysUsed (some (.valid s)) (some (.valid e))
          publicHolidays schoolHolidays selectedStateId := by
  constructor
  · simp only [calculateLeaveDaysUsed]
    exact List.length_filter_le _ _
  · simp only [calculateLeaveDaysUsed, calculateSchoolDaysAbsent]
    apply length_filter_mono
    intro d hd
    by_cases h1 : isWeekend d = true
    · simp [h1] at hd
    · by_cases h2 : isPublicHoliday d publicHolidays selectedStateId = true
      · simp [h1, h2] at hd
      · simp [h1, h2]

theorem c6_monotonic_exclusion_witness :
    calculateLeaveDaysUsed (some (.valid 0)) (some (.valid 6))
        (some [⟨"h1", .valid 1, "NY", some ["state1"]⟩])
        (some [⟨"h2", .valid 0, .valid 3, "Term", some "state1"⟩]) (some "state1")
      ≤ (getDatesInRange (.valid 0) (.valid 6)).length
    ∧ calculateSchoolDaysAbsent (some (.valid 0)) (some (.valid 6))
        (some [⟨"h1", .valid 1, "NY", some ["state1"]⟩])
        (some [⟨"h2", .valid 0, .valid 3, "Term", some "state1"⟩]) (some "state1")
      ≤ calculateLeaveDaysUsed (some (.valid 0)) (some (.valid 6))
          (some [⟨"h1", .valid 1, "NY", some ["state1"]⟩])
          (some [⟨"h2", .valid 0, .valid 3, "Term", some "state1"⟩]) (some "state1") :=
  c6_monotonic_exclusion 0 6 (by decide)
    (some [⟨"h1", .valid 1, "NY", some ["state1"]⟩])
    (some [⟨"h2", .valid 0, .valid 3, "Term", some "state1"⟩]) (some "state1")

/-! ## C7: getDatesInRange materializes the inclusive range -/

/-- C7: for `start <= end`, `getDatesInRange` returns the inclusive
ascending daily sequence from `start` to `end`, of length
`(end - start) + 1`; for `start > end` it returns the empty sequence. -/
theorem c7_dates_in_range (s e : Int) :
    (s ≤ e →
      getDatesInRange (.valid s) (.valid e)
          = (List.range ((e - s).toNat + 1)).map (fun i : Nat => JSDate.valid (s + (i : Int)))
      ∧ (getDatesInRange (.valid s) (.valid e)).length = (e - s).toNat + 1)
    ∧ (e < s → getDatesInRange (.valid s) (.valid e) = []) := by
  constructor
  · intro hse
    have hn : (e + 1 - s).toNat = (e - s).toNat + 1 := by omega
    constructor
    · simp only [getDatesInRange, rangeDays, hn, rangeDaysAux_eq, List.map_map]
      rfl
    · simp [getDatesInRange, rangeDays, hn, rangeDaysAux_length]
  · intro hes
    have hn : (e + 1 - s).toNat = 0 := by omega
    simp [getDatesInRange, rangeDays, hn, rangeDaysAux]

theorem c7_dates_in_range_witness :
    (getDatesInRange (.valid 0) (.valid 2)
        = (List.range ((2 - 0 : Int).toNat + 1)).map
            (fun i : Nat => JSDate.valid (0 + (i : Int)))
      ∧ (getDatesInRange (.valid 0) (.valid 2)).length = (2 - 0 : Int).toNat + 1)
    ∧ getDatesInRange (.valid 5) (.valid 3) = [] :=
  ⟨(c7_dates_in_range 0 2).1 (by decide), (c7_dates_in_range 5 3).2 (by decide)⟩

/-! ## C8: published-only filter -/

theorem filterPublished_drop (pre post : List RawItem) (bad : RawItem)
    (h : bad.isArchived = true ∨ bad.isDraft = true) :
    filterPublishedItems (some (pre ++ bad :: post))
      = filterPublishedItems (some (pre ++ post)) := by
  simp only [filterPublishedItems, List.filter_append, List.filter_cons]
  rcases h with h | h <;> simp [h]

/-- C8: an archived or draft item contributes nothing to any of the
three normalizers: inserting such an item anywhere in the input leaves
each output unchanged, because the published-only filter drops it
before any field extraction. -/
theorem c8_published_only (pre post : List RawItem) (bad : RawItem)
    (h : bad.isArchived = true ∨ bad.isDraft = true)
    (pubFields : PublicHolidayFields) (schFields : SchoolHolidayFields)
    (stFields : StateFields) :
    processPublicHolidays (some (pre ++ bad :: post)) pubFields
        = processPublicHolidays (some (pre ++ post)) pubFields
    ∧ processSchoolHolidays (some (pre ++ bad :: post)) schFields
        = processSchoolHolidays (some (pre ++ post)) schFields
    ∧ processStates (some (pre ++ bad :: post)) stFields
        = processStates (some (pre ++ post)) stFields := by
  refine ⟨?_, ?_, ?_⟩ <;>
    simp only [processPublicHolidays, processSchoolHolidays, processStates,
      filterPublished_drop pre post bad h]

theorem c8_published_only_witness :
    processPublicHolidays (some ([] ++ ⟨"x", true, false, []⟩ :: [])) ⟨none, none, none⟩
        = processPublicHolidays (some ([] ++ [])) ⟨none, none, none⟩
    ∧ processSchoolHolidays (some ([] ++ ⟨"x", true, false, []⟩ :: []))
          ⟨none, none, none, none⟩
        = processSchoolHolidays (some ([] ++ [])) ⟨none, none, none, none⟩
    ∧ processStates (some ([] ++ ⟨"x", true, false, []⟩ :: [])) ⟨none, none, none⟩
        = processStates (some ([] ++ [])) ⟨none, none, none⟩ :=
  c8_published_only [] [] ⟨"x", true, false, []⟩ (Or.inl rfl)
    ⟨none, none, none⟩ ⟨none, none, none, none⟩ ⟨none, none, none⟩

/-! ## C9: absent range bounds give zero metrics -/

/-- C9: when either selection bound is absent, each of the three
metrics - and hence every field of `calculateAllMetrics` - is 0. -/
theorem c9_absent_bounds_zero (startDate endDate : Option JSDate)
    (publicHolidays : Option (List PublicHoliday))
    (schoolHolidays : Option (List SchoolHoliday))
    (selectedStateId : Option String)
    (h : startDate = none ∨ endDate = none) :
    calculateTotalDaysOff startDate endDate publicHolidays schoolHolidays selectedStateId = 0
    ∧ calculateLeaveDaysUsed startDate endDate publicHolidays schoolHolidays selectedStateId = 0
    ∧ calculateSchoolDaysAbsent startDate endDate publicHolidays schoolHolidays selectedStateId = 0
    ∧ calculateAllMetrics startDate endDate publicHolidays schoolHolidays selectedStateId
        = ⟨0, 0, 0⟩ := by
  have h1 : calculateTotalDaysOff startDate endDate publicHolidays schoolHolidays
      selectedStateId = 0 := by
    rcases h with h | h <;> subst h
    · cases endDate <;> rfl
    · cases startDate <;> rfl
  have h2 : calculateLeaveDaysUsed startDate endDate publicHolidays schoolHolidays
      selectedStateId = 0 := by
    rcases h with h | h <;> subst h
    · cases endDate <;> rfl
    · cases startDate <;> rfl
  have h3 : calculateSchoolDaysAbsent startDate endDate publicHolidays schoolHolidays
      selectedStateId = 0 := by
    rcases h with h | h <;> subst h
    · cases endDate <;> rfl
    · cases startDate <;> rfl
  exact ⟨h1, h2, h3, by simp [calculateAllMetrics, h1, h2, h3]⟩

theorem c9_absent_bounds_zero_witness :
    calculateTotalDaysOff none (some (.valid 0)) none none none = 0
    ∧ calculateLeaveDaysUsed none (some (.valid 0)) none none none = 0
    ∧ calculateSchoolDaysAbsent none (some (.valid 0)) none none none = 0
    ∧ calculateAllMetrics none (some (.valid 0)) none none none = ⟨0, 0, 0⟩ :=
  c9_absent_bounds_zero none (some (.valid 0)) none none none (Or.inl rfl)

/-! ## C10: state abbreviations are always empty -/

theorem mem_insertByName {x s : StateEntity} {l : List StateEntity} :
    x ∈ insertByName s l ↔ x = s ∨ x ∈ l := by
  induction l with
  | nil => simp [insertByName]
  | cons t ts ih =>
    simp only [insertByName]
    split
    · simp
    · simp only [List.mem_cons, ih]
      tauto

theorem mem_sortByName {x : StateEntity} {l : List StateEntity} :
    x ∈ sortByName l ↔ x ∈ l := by
  induction l with
  | nil => simp [sortByName]
  | cons s ss ih => simp [sortByName, mem_insertByName, ih]

/-- C10: `discoverStateFields` never produces an `abbreviationField`,
and every state entity emitted by `processStates` under a field map it
produced has the empty string as abbreviation. -/
theorem c10_abbreviation_empty (collectionSchema : CollectionSchema)
    (items : Option (List RawItem)) :
    (discoverStateFields collectionSchema).abbreviationField = none
    ∧ ∀ st, st ∈ processStates items (discoverStateFields collectionSchema) →
        st.abbreviation = "" := by
  refine ⟨rfl, ?_⟩
  intro st hst
  simp only [processStates, mem_sortByName, List.mem_map] at hst
  obtain ⟨item, -, rfl⟩ := hst
  rfl

/-! ## C1: public-holiday state filter -/

/-- C1 counterexample: a public holiday whose `stateIds` is the empty
array, on its own date, IS filtered out by a non-null state selection
(the empty array is truthy and does not contain the id), refuting the
claim that such a holiday is never filtered out. -/
theorem c1_empty_stateIds_counterexample :
    isPublicHoliday (.valid 0) (some [⟨"h1", .valid 0, "New Year", some []⟩])
        (some "state1") = false
    ∧ (⟨"h1", .valid 0, "New Year", some []⟩ : PublicHoliday).stateIds = some []
    ∧ isSameDate (.valid 0) (⟨"h1", .valid 0, "New Year", some []⟩ : PublicHoliday).date
        = true := by decide

/-- C1 amended: with a non-null (non-empty) selected state id, the
state filter of `isPublicHoliday` and of the public-holiday pass of
`calculateTotalDaysOff` keeps a holiday iff its `stateIds` is absent or
contains the selected id: `isPublicHoliday` reduces to that
keep-condition, a kept holiday contributes to `calculateTotalDaysOff`
exactly as with no selection, and a filtered-out holiday contributes
nothing. -/
theorem c1_public_state_filter_amended (sel : String) (hsel : sel ≠ "") :
    (∀ (date : JSDate) (hs : List PublicHoliday),
      isPublicHoliday date (some hs) (some sel)
        = hs.any fun h => pubKeepAmended sel h && isSameDate date h.date)
    ∧ (∀ (sd ed : JSDate) (h : PublicHoliday), pubKeepAmended sel h = true →
        calculateTotalDaysOff (some sd) (some ed) (some [h]) none (some sel)
          = calculateTotalDaysOff (some sd) (some ed) (some [h]) none none)
    ∧ (∀ (sd ed : JSDate) (h : PublicHoliday), pubKeepAmended sel h = false →
        calculateTotalDaysOff (some sd) (some ed) (some [h]) none (some sel)
          = calculateTotalDaysOff (some sd) (some ed) (some []) none none) := by
  have hts : jsTruthyStr (some sel) = true := by simp [jsTruthyStr, hsel]
  refine ⟨?_, ?_, ?_⟩
  · intro date hs
    cases hs with
    | nil => simp [isPublicHoliday]
    | cons a t =>
      simp only [isPublicHoliday, List.isEmpty_cons, if_false, Bool.false_eq_true]
      have hfun : ∀ h : PublicHoliday,
          (if jsTruthyStr (some sel) && h.stateIds.isSome
              && !((h.stateIds.getD []).contains ((some sel).getD "")) then false
           else isSameDate date h.date)
            = (pubKeepAmended sel h && isSameDate date h.date) := by
        intro h
        cases hsi : h.stateIds with
        | none => simp [pubKeepAmended, hsi, hts]
        | some l => cases hc : l.contains sel <;>
            simp [pubKeepAmended, hsi, hts, hc]
      simp only [hfun]
  · intro sd ed h hkeep
    have hcond : (jsTruthyStr (some sel) && h.stateIds.isSome
        && !((h.stateIds.getD []).contains ((some sel).getD ""))) = false := by
      cases hsi : h.stateIds with
      | none => simp [hsi]
      | some l =>
        have hc : sel ∈ l := by
          have := hkeep
          simp [pubKeepAmended, hsi] at this
          simpa using this
        simp [hsi, hc]
    simp only [calculateTotalDaysOff, List.foldl_cons, List.foldl_nil, hcond]
    simp [jsTruthyStr]
  · intro sd ed h hkeep
    have hcond : (jsTruthyStr (some sel) && h.stateIds.isSome
        && !((h.stateIds.getD []).contains ((some sel).getD ""))) = true := by
      cases hsi : h.stateIds with
      | none => simp [pubKeepAmended, hsi] at hkeep
      | some l =>
        have hc : sel ∉ l := by
          have := hkeep
          simp [pubKeepAmended, hsi] at this
          simpa using this
        simp [hsi, hc, hts, hsel]
    simp only [calculateTotalDaysOff, List.foldl_cons, List.foldl_nil, hcond]
    simp

theorem c1_public_state_filter_witness :
    isPublicHoliday (.valid 0) (some [⟨"h1", .valid 0, "NY", none⟩]) (some "state1")
        = ([⟨"h1", .valid 0, "NY", none⟩] : List PublicHoliday).any
            (fun h => pubKeepAmended "state1" h && isSameDate (.valid 0) h.date)
    ∧ calculateTotalDaysOff (some (.valid 0)) (some (.valid 4))
          (some [⟨"h1", .valid 2, "NY", some ["state1"]⟩]) none (some "state1")
        = calculateTotalDaysOff (some (.valid 0)) (some (.valid 4))
            (some [⟨"h1", .valid 2, "NY", some ["state1"]⟩]) none none
    ∧ calculateTotalDaysOff (some (.valid 0)) (some (.valid 4))
          (some [⟨"h1", .valid 2, "NY", some []⟩]) none (some "state1")
        = calculateTotalDaysOff (some (.valid 0)) (some (.valid 4)) (some []) none none :=
  ⟨(c1_public_state_filter_amended "state1" (by decide)).1 (.valid 0)
      [⟨"h1", .valid 0, "NY", none⟩],
   (c1_public_state_filter_amended "state1" (by decide)).2.1 (.valid 0) (.valid 4)
      ⟨"h1", .valid 2, "NY", some ["state1"]⟩ (by decide),
   (c1_public_state_filter_amended "state1" (by decide)).2.2 (.valid 0) (.valid 4)
      ⟨"h1", .valid 2, "NY", some []⟩ (by decide)⟩

/-! ## C2: school-holiday state filter -/

/-- C2 counterexample: a school holiday whose `stateId` is null is
INCLUDED under a non-null state selection (the falsy `stateId`
short-circuits the filter), refuting the claim that it is excluded. -/
theorem c2_null_stateId_counterexample :
    isDateInSchoolHoliday (.valid 2)
        (some [⟨"h1", .valid 0, .valid 5, "Term", none⟩]) (some "state1") = true
    ∧ (⟨"h1", .valid 0, .valid 5, "Term", none⟩ : SchoolHoliday).stateId = none := by
  decide

/-- C2 amended: with a non-null (non-empty) selected state id, the
state filter of `isDateInSchoolHoliday` and of the school-holiday pass
of `calculateTotalDaysOff` keeps a holiday iff its `stateId` is falsy
(treated as universal) or equals the selected id: the membership test
reduces to that keep-condition, a kept holiday contributes to
`calculateTotalDaysOff` exactly as with no selection, and a
filtered-out holiday contributes nothing. -/
theorem c2_school_state_filter_amended (sel : String) (hsel : sel ≠ "") :
    (∀ (date : JSDate) (hs : List SchoolHoliday),
      isDateInSchoolHoliday date (some hs) (some sel)
        = hs.any fun h => schKeepAmended sel h
            && isDateInRange date h.startDate h.endDate)
    ∧ (∀ (sd ed : JSDate) (h : SchoolHoliday), schKeepAmended sel h = true →
        calculateTotalDaysOff (some sd) (some ed) none (some [h]) (some sel)
          = calculateTotalDaysOff (some sd) (some ed) none (some [h]) none)
    ∧ (∀ (sd ed : JSDate) (h : SchoolHoliday), schKeepAmended sel h = false →
        calculateTotalDaysOff (some sd) (some ed) none (some [h]) (some sel)
          = calculateTotalDaysOff (some sd) (some ed) none (some []) none) := by
  have hts : jsTruthyStr (some sel) = true := by simp [jsTruthyStr, hsel]
  refine ⟨?_, ?_, ?_⟩
  · intro date hs
    cases hs with
    | nil => simp [isDateInSchoolHoliday]
    | cons a t =>
      simp only [isDateInSchoolHoliday, List.isEmpty_cons, if_false, Bool.false_eq_true]
      have hfun : ∀ h : SchoolHoliday,
          (if jsTruthyStr (some sel) && jsTruthyStr h.stateId
              && !(h.stateId == some sel) then false
           else isDateInRange date h.startDate h.endDate)
            = (schKeepAmended sel h && isDateInRange date h.startDate h.endDate) := by
        intro h
        cases hsi : h.stateId with
        | none => simp [schKeepAmended, hsi, hts, jsTruthyStr]
        | some t => cases hb : (t == "") <;> cases he : (t == sel) <;>
            simp [schKeepAmended, hsi, hts, jsTruthyStr, hb, he, hsel]
      simp only [hfun]
  · intro sd ed h hkeep
    have hcond : (jsTruthyStr (some sel) && jsTruthyStr h.stateId
        && !(h.stateId == some sel)) = false := by
      cases hsi : h.stateId with
      | none => simp [jsTruthyStr, hsi]
      | some t =>
        rcases hb : (t == "") with _ | _
        · have he : (t == sel) = true := by
            simpa [schKeepAmended, hsi, jsTruthyStr, hb] using hkeep
          simp [jsTruthyStr, hsi, hb, he]
        · simp [jsTruthyStr, hsi, hb]
    have hnone : ∀ st : Option String, (jsTruthyStr (none : Option String)
        && jsTruthyStr st && !(st == none)) = false := by
      intro st; simp [jsTruthyStr]
    simp only [calculateTotalDaysOff, List.foldl_cons, List.foldl_nil, hcond,
      hnone, Bool.false_eq_true, if_false]
  · intro sd ed h hkeep
    have hcond : (jsTruthyStr (some sel) && jsTruthyStr h.stateId
        && !(h.stateId == some sel)) = true := by
      cases hsi : h.stateId with
      | none => simp [schKeepAmended, hsi, jsTruthyStr] at hkeep
      | some t =>
        rcases hb : (t == "") with _ | _
        · simp [schKeepAmended, hsi, jsTruthyStr, hb] at hkeep
          simp [jsTruthyStr, hsi, hb, hts, hkeep, hsel]
        · simp [schKeepAmended, hsi, jsTruthyStr, hb] at hkeep
    simp only [calculateTotalDaysOff, List.foldl_cons, List.foldl_nil, hcond, if_true]

theorem c2_school_state_filter_witness :
    isDateInSchoolHoliday (.valid 2)
        (some [⟨"h1", .valid 0, .valid 5, "Term", some "state1"⟩]) (some "state1")
        = ([⟨"h1", .valid 0, .valid 5, "Term", some "state1"⟩] : List SchoolHoliday).any
            (fun h => schKeepAmended "state1" h
              && isDateInRange (.valid 2) h.startDate h.endDate)
    ∧ calculateTotalDaysOff (some (.valid 0)) (some (.valid 4)) none
          (some [⟨"h1", .valid 1, .valid 2, "Term", some "state1"⟩]) (some "state1")
        = calculateTotalDaysOff (some (.valid 0)) (some (.valid 4)) none
            (some [⟨"h1", .valid 1, .valid 2, "Term", some "state1"⟩]) none
    ∧ calculateTotalDaysOff (some (.valid 0)) (some (.valid 4)) none
          (some [⟨"h1", .valid 1, .valid 2, "Term", some "state2"⟩]) (some "state1")
        = calculateTotalDaysOff (some (.valid 0)) (some (.valid 4)) none (some []) none :=
  ⟨(c2_school_state_filter_amended "state1" (by decide)).1 (.valid 2)
      [⟨"h1", .valid 0, .valid 5, "Term", some "state1"⟩],
   (c2_school_state_filter_amended "state1" (by decide)).2.1 (.valid 0) (.valid 4)
      ⟨"h1", .valid 1, .valid 2, "Term", some "state1"⟩ (by decide),
   (c2_school_state_filter_amended "state1" (by decide)).2.2 (.valid 0) (.valid 4)
      ⟨"h1", .valid 1, .valid 2, "Term", some "state2"⟩ (by decide)⟩

theorem c10_abbreviation_empty_witness :
    (discoverStateFields ⟨[]⟩).abbreviationField = none
    ∧ (⟨"i1", "Untitled State", "", ""⟩ : StateEntity).abbreviation = "" :=
  ⟨(c10_abbreviation_empty ⟨[]⟩ (some [⟨"i1", false, false, []⟩])).1,
   (c10_abbreviation_empty ⟨[]⟩ (some [⟨"i1", false, false, []⟩])).2
     ⟨"i1", "Untitled State", "", ""⟩ (by decide)⟩

/-! ## C3: field discovery strategy order -/

theorem findFieldByType_eq_first (fields : List Field) (t : String) :
    findFieldByType fields t = firstFieldOfType t fields := by
  induction fields with
  | nil => rfl
  | cons f fs ih =>
    rw [findFieldByType, List.find?_cons]
    by_cases h : f.type = t
    · simp [firstFieldOfType, h]
    · simp only [firstFieldOfType, if_neg h, ← ih, findFieldByType]
      have hb : (f.type == t) = false := by simpa using h
      simp [hb]

theorem findFieldBySlug_eq_first (fields : List Field) (patterns : List String) :
    findFieldBySlug fields patterns = firstFieldMatchingSlug patterns fields := by
  induction fields with
  | nil => rfl
  | cons f fs ih =>
    rw [findFieldBySlug, List.find?_cons]
    cases h : patterns.any (fun p => strIncludes (lowerStr f.slug) (lowerStr p)) <;>
      simp only [firstFieldMatchingSlug, h, if_true, if_false, ← ih, findFieldBySlug,
        Bool.false_eq_true, reduceIte]

/-- C3 counterexample: a school-holiday schema that contains a
DateTime-typed field still resolves its start-date role to a
non-DateTime field whose slug matches a name pattern, refuting the
claim that the type match is tried first and the name patterns only
when no field has the type. -/
theorem c3_type_first_counterexample :
    (discoverSchoolHolidayFields
        ⟨[⟨"start-date", "PlainText", none⟩, ⟨"when", "DateTime", none⟩]⟩
        none).startDateField
      = some ⟨"start-date", "PlainText", none⟩
    ∧ ([⟨"start-date", "PlainText", none⟩, ⟨"when", "DateTime", none⟩] : List Field).any
        (fun f => f.type == "DateTime") = true
    ∧ (⟨"start-date", "PlainText", none⟩ : Field).type ≠ "DateTime" := by decide

/-- C3 amended: the strategy order differs by role.  The public-holiday
date role is resolved type-first (first `DateTime` field, then the
`date` name pattern), but the school-holiday start-date and end-date
roles are resolved name-pattern-first (ordered patterns
`start-date`/`startdate`/`start` resp. `end-date`/`enddate`/`end`,
case-insensitive substring, first matching field in original order)
with the `DateTime` type match only as fallback. -/
theorem c3_discovery_strategy_amended (collectionSchema : CollectionSchema)
    (statesCollectionId : Option String) :
    (discoverPublicHolidayFields collectionSchema statesCollectionId).dateField
        = typeThenPattern collectionSchema.fields "DateTime" ["date"]
    ∧ (discoverSchoolHolidayFields collectionSchema statesCollectionId).startDateField
        = patternThenType collectionSchema.fields
            ["start-date", "startdate", "start"] "DateTime"
    ∧ (discoverSchoolHolidayFields collectionSchema statesCollectionId).endDateField
        = patternThenType collectionSchema.fields
            ["end-date", "enddate", "end"] "DateTime" := by
  refine ⟨?_, ?_, ?_⟩
  · simp only [discoverPublicHolidayFields, typeThenPattern, findFieldByType_eq_first,
      findFieldBySlug_eq_first]
    cases firstFieldOfType "DateTime" collectionSchema.fields <;> rfl
  · simp only [discoverSchoolHolidayFields, patternThenType, findFieldByType_eq_first,
      findFieldBySlug_eq_first]
    cases firstFieldMatchingSlug ["start-date", "startdate", "start"]
        collectionSchema.fields <;> rfl
  · simp only [discoverSchoolHolidayFields, patternThenType, findFieldByType_eq_first,
      findFieldBySlug_eq_first]
    cases firstFieldMatchingSlug ["end-date", "enddate", "end"]
        collectionSchema.fields <;> rfl

/-! ## C4: parseWebflowDate on malformed input -/

/-- C4 (code bug): `parseWebflowDate` does return `null` for the empty
string, but for a malformed nonempty string it returns the normalized
Invalid Date - a truthy, non-null value - instead of `null`, so the
callers' `if (!date)` checks do not filter the record out. -/
theorem c4_invalid_date_not_null :
    parseWebflowDate "" = none
    ∧ parseWebflowDate "not-a-date" = some JSDate.invalid
    ∧ parseWebflowDate "not-a-date" ≠ none := by decide

/-! ## C5: school-holiday date-order invariant -/

/-- C5 (code bug): a published school-holiday item whose date fields
hold unparseable strings is emitted by `processSchoolHolidays` as an
entity with Invalid start/end dates - for which `startDate <= endDate`
is false under JS comparison - because the `if (!startDate)` and
`endDate < startDate` guards are both defeated by `NaN`; by contrast,
an item with valid dates in the wrong order is dropped as claimed. -/
theorem c5_invalid_dates_leak :
    processSchoolHolidays
        (some [⟨"i1", false, false,
          [("start-date", .str "not-a-date"), ("end-date", .str "not-a-date")]⟩])
        ⟨some ⟨"start-date", "DateTime", none⟩, some ⟨"end-date", "DateTime", none⟩,
          none, none⟩
      = [⟨"i1", .invalid, .invalid, "Untitled Holiday", none⟩]
    ∧ jsDateLe JSDate.invalid JSDate.invalid = false
    ∧ processSchoolHolidays
        (some [⟨"i2", false, false,
          [("start-date", .str "2025-01-10"), ("end-date", .str "2025-01-05")]⟩])
        ⟨some ⟨"start-date", "DateTime", none⟩, some ⟨"end-date", "DateTime", none⟩,
          none, none⟩
      = [] := by decide

end ALC
